import Mathlib

/-!
# Verification development for `bible-golang-elasticsearch`

A shallow embedding of the two programs of the repository:

* `src/elasticbible/import/main.go` : reads a corpus (book, chapter, verse) and
  submits one document per verse to a bulk indexer;
* `src/elasticbible/search/main.go` : resolves its configuration, queries the
  store and prints the hits with the search term highlighted.

Go strings are modelled by their sequences of runes (`List Char`): the corpus
strings come out of `json.Unmarshal` and the hit texts out of
`json.Decoder.Decode`, both of which deliver valid UTF-8, and the settings of
the query program are taken to be valid UTF-8 as well (on a search term that
is not, `regexp.Compile` fails and the program renders nothing).
Go `int` values are modelled by `Int`; the only arithmetic in the programs is
`index + 1` on a slice index, which is below the slice length and therefore
cannot wrap.
-/

namespace ElasticBible

/-- A Go string, as its sequence of runes. -/
abbrev GoString := List Char

/-! ## The fragment of package `fmt` used by both programs -/

/-- The dynamic values handed to `fmt.Sprintf` and stored in
`map[string]interface{}` by the programs. -/
inductive GoValue where
  | str (s : GoString)
  | int (n : Int)
  | err (msg : GoString)
  deriving DecidableEq, Repr

/-- The digit table `ldigits` of package `fmt`. -/
def ldigits : GoString := "0123456789abcdefx".toList

/-- The base-10 digit loop of `fmt.(*fmt).fmtInteger`: digits are written from
the end of the buffer towards its start,
`for u >= 10 { i--; next := u / 10; buf[i] = byte('0' + u - next*10); u = next }`
followed by `i--; buf[i] = digits[u]`.  The first argument bounds the number of
iterations. -/
def fmtDigitsLoop : Nat → Nat → GoString → GoString
  | 0, u, buf => ldigits.getD u '0' :: buf
  | fuel + 1, u, buf =>
    if 10 ≤ u then
      fmtDigitsLoop fuel (u / 10) (Char.ofNat (48 + (u - u / 10 * 10)) :: buf)
    else
      ldigits.getD u '0' :: buf

/-- The digit loop run to completion: `u` iterations always suffice, because
every iteration divides `u` by ten. -/
def fmtDigits (u : Nat) (buf : GoString) : GoString :=
  fmtDigitsLoop u u buf

/-- The verb `%d` on an `int`: `fmtInteger` with base 10; a negative value is
negated and the sign is written in front of the digits. -/
def fmtInteger (n : Int) : GoString :=
  if n < 0 then '-' :: fmtDigits n.natAbs [] else fmtDigits n.natAbs []

/-- The verb `%v` (default format) on the values of `GoValue`. -/
def fmtDefault : GoValue → GoString
  | .str s => s
  | .int n => fmtInteger n
  | .err msg => msg

/-- The function `fmt.Sprintf`, restricted to the verbs the programs use:
`%s` on a string or an error, `%d` on an int, `%v` on anything, and literal
text.  A format outside this fragment (another verb, a flag, a missing, extra
or ill-typed operand) yields `none`. -/
def Sprintf : GoString → List GoValue → Option GoString
  | [], [] => some []
  | [], _ :: _ => none
  | c :: rest, args =>
    if c = '%' then
      match rest, args with
      | 's' :: rest', .str s :: args' => (Sprintf rest' args').map (s ++ ·)
      | 's' :: rest', .err m :: args' => (Sprintf rest' args').map (m ++ ·)
      | 'd' :: rest', .int n :: args' => (Sprintf rest' args').map (fmtInteger n ++ ·)
      | 'v' :: rest', v :: args' => (Sprintf rest' args').map (fmtDefault v ++ ·)
      | _, _ => none
    else (Sprintf rest args).map (c :: ·)

/-! ## The ingestion program (`import/main.go`) -/

/-- The struct `BookData` (lines 19-22). -/
structure BookData where
  Abbrev : GoString
  Chapters : List (List GoString)
  deriving DecidableEq, Repr

/-- Line 85: `docID := fmt.Sprintf("%s-%d-%d", book.Abbrev, chapterIndex+1, verseNum)`
with `verseNum := verseIndex + 1` (line 84). -/
def docID (abbr : GoString) (chapterIndex verseIndex : Nat) : GoString :=
  let verseNum : Int := (verseIndex : Int) + 1
  (Sprintf "%s-%d-%d".toList
    [.str abbr, .int ((chapterIndex : Int) + 1), .int verseNum]).getD []

/-- The value type `map[string]interface{}` of the document literal, as the
list of its entries. -/
abbrev Doc := List (GoString × GoValue)

/-- Lines 86-91: the document built for one verse. -/
def verseDoc (book : BookData) (chapterIndex verseIndex : Nat) (verseText : GoString) : Doc :=
  let verseNum : Int := (verseIndex : Int) + 1
  [("abbrev".toList, .str book.Abbrev),
   ("chapter".toList, .int ((chapterIndex : Int) + 1)),
   ("verse".toList, .int verseNum),
   ("en".toList, .str verseText)]

/-- The value of key `k` in a document. -/
def Doc.get (d : Doc) (k : GoString) : Option GoValue :=
  (d.find? (fun e => e.1 == k)).map (·.2)

/-- The struct `esutil.BulkIndexerItem`, with the data fields the program sets
(lines 101-112).  The two callbacks are the same for every item: `OnSuccess`
does nothing and `OnFailure` logs the line `failureLine`. -/
structure BulkIndexerItem where
  Action : GoString
  DocumentID : GoString
  Body : List UInt8
  deriving DecidableEq, Repr

/-- The struct `elasticsearch.Config`, with the fields the programs set. -/
structure Config where
  Addresses : List GoString
  Username : GoString
  Password : GoString
  deriving DecidableEq, Repr

/-- The struct `esutil.BulkIndexerConfig`, with the fields the program sets
(lines 70-76). -/
structure BulkIndexerConfig where
  Index : GoString
  NumWorkers : Nat
  FlushBytes : Nat
  FlushInterval : Nat
  deriving DecidableEq, Repr

/-- The struct `esutil.BulkIndexerStats`, with the two counters the program
reads (lines 125-130). -/
structure BulkIndexerStats where
  NumFlushed : Nat
  NumFailed : Nat
  deriving DecidableEq, Repr

/-- Everything outside the program that the ingestion run depends on: the
file system, the JSON codec and the store client library.  Each field is the
observable result of one library call; an `Option` is the returned `error`
(`none` for `nil`).  What the store does with the submitted documents shows in
the `OnFailure` calls and in the statistics. -/
structure ImportEnv where
  /-- The call `ioutil.ReadFile(jsonFilePath)`. -/
  readFile : GoString → Except GoString (List UInt8)
  /-- The call `json.Unmarshal(data, &booksData)`. -/
  unmarshal : List UInt8 → Except GoString (List BookData)
  /-- The call `elasticsearch.NewClient(cfg)`. -/
  newClient : Config → Option GoString
  /-- The call `esutil.NewBulkIndexer(...)`. -/
  newBulkIndexer : BulkIndexerConfig → Option GoString
  /-- The bytes `json.Marshal(doc)` produces. -/
  marshal : Doc → List UInt8
  /-- The calls of the `OnFailure` callback that the workers of the bulk
  indexer make for the items added, in the order in which they happen: the
  item and the error of each per-document failure.  All of them have happened
  when `Close` returns. -/
  failures : List BulkIndexerItem → List (BulkIndexerItem × GoString)
  /-- The value of `bulkIndexer.Stats()` after `Close`. -/
  stats : List BulkIndexerItem → BulkIndexerStats

/-- The contexts that the program creates: `context.Background()` is the only
one (lines 100 and 121). -/
inductive Context where
  | Background
  deriving DecidableEq, Repr

/-- The method `Context.Err`: the background context is never cancelled, so its
`Done()` channel never fires and its `Err()` is always nil. -/
def Context.Err : Context → Option GoString
  | .Background => none

/-- The error returned by `bulkIndexer.Add(ctx, item)` of package `esutil`.
`Add` serialises the metadata of the item and measures its body, which does
not fail for a document ID and a `bytes.Reader` body, and then waits until
either the item is queued (`nil`) or the context is done (`ctx.Err()`); no
other path returns an error, and per-document failures of the store are
reported through `OnFailure`, not through `Add`. -/
def bulkIndexerAdd (ctx : Context) (_item : BulkIndexerItem) : Option GoString :=
  ctx.Err

/-- The error returned by `bulkIndexer.Close(ctx)` of package `esutil`: it
returns `ctx.Err()` when the context is done, and otherwise waits for the
workers, flushes what is left and returns `nil`; a failed flush is reported
through the callbacks and the statistics. -/
def bulkIndexerClose (ctx : Context) : Option GoString :=
  ctx.Err

/-- Line 93: `json.Marshal(doc)`.  Encoding a `map[string]interface{}` whose
values are strings and ints has no failing path in `encoding/json` (errors
arise only from unsupported types or values, cycles and custom marshalers), so
the call always returns the encoded bytes and a nil error. -/
def jsonMarshal (env : ImportEnv) (doc : Doc) : Except GoString (List UInt8) :=
  .ok (env.marshal doc)

/-- Lines 101-112: the item handed to `bulkIndexer.Add`. -/
def verseItem (data : List UInt8) (docID : GoString) : BulkIndexerItem :=
  { Action := "index".toList, DocumentID := docID, Body := data }

/-- The state of the ingestion loop: the `Add` calls made so far with the
error each returned, the lines written through package `log`, and the exit
status once `log.Fatalf` has ended the process. -/
structure LoopState where
  calls : List (BulkIndexerItem × Option GoString)
  log : List GoString
  exited : Option Nat
  deriving DecidableEq, Repr

/-- The state in which the ingestion loop starts. -/
def LoopState.init : LoopState := { calls := [], log := [], exited := none }

/-- The items passed to `bulkIndexer.Add` so far. -/
def LoopState.added (st : LoopState) : List BulkIndexerItem :=
  st.calls.map (·.1)

/-- Lines 84-116: the body of the innermost loop, for the verse at
`verseIndex` of the chapter at `chapterIndex` of `book`.  A state that has
exited stays as it is. -/
def verseBody (env : ImportEnv) (book : BookData) (chapterIndex : Nat)
    (st : LoopState) (verse : Nat × GoString) : LoopState :=
  match st.exited with
  | some _ => st
  | none =>
    let verseIndex := verse.1
    let verseText := verse.2
    let id := docID book.Abbrev chapterIndex verseIndex
    let doc := verseDoc book chapterIndex verseIndex verseText
    match jsonMarshal env doc with
    | .error err =>
      { st with log := st.log ++
          [(Sprintf "Could not encode document %s: %s".toList [.str id, .err err]).getD []] }
    | .ok data =>
      let item := verseItem data id
      match bulkIndexerAdd .Background item with
      | some err =>
        { calls := st.calls ++ [(item, some err)]
          log := st.log ++
            [(Sprintf "Error adding document to bulk indexer: %s".toList [.err err]).getD []]
          exited := some 1 }
      | none => { st with calls := st.calls ++ [(item, none)] }

/-- Lines 82-118: `for chapterIndex, verses := range book.Chapters`, with the
loop over `verses` inside. -/
def chapterBody (env : ImportEnv) (book : BookData)
    (st : LoopState) (chapter : Nat × List GoString) : LoopState :=
  chapter.2.enum.foldl (verseBody env book chapter.1) st

/-- Lines 81-119: `for _, book := range booksData`. -/
def ingestLoop (env : ImportEnv) (booksData : List BookData) (st : LoopState) : LoopState :=
  booksData.foldl (fun st book => book.Chapters.enum.foldl (chapterBody env book) st) st

/-- The five flags of the ingestion program after `flag.Parse` (lines 29-34);
`none` is a flag that was not given. -/
structure ImportFlags where
  file : Option GoString
  host : Option GoString
  username : Option GoString
  password : Option GoString
  index : Option GoString
  deriving DecidableEq, Repr

/-- The outcome of a run of the ingestion program. -/
structure ImportRun where
  calls : List (BulkIndexerItem × Option GoString)
  log : List GoString
  exit : Nat
  deriving DecidableEq, Repr

/-- A run ended by `log.Fatal` or `log.Fatalf` before any document was built. -/
def ImportRun.fatal (msg : GoString) : ImportRun :=
  { calls := [], log := [msg], exit := 1 }

/-- Lines 45-49: the byte-order mark is removed when present. -/
def stripBOM (data : List UInt8) : List UInt8 :=
  let bom : List UInt8 := [0xEF, 0xBB, 0xBF]
  if bom.isPrefixOf data then data.drop bom.length else data

/-- Lines 108-111: the line that the `OnFailure` callback of an item logs. -/
def failureLine (failure : BulkIndexerItem × GoString) : GoString :=
  (Sprintf "Failed to index document %s: %s".toList
    [.str failure.1.DocumentID, .err failure.2]).getD []

/-- Lines 121-130: closing the indexer and reporting the statistics.  The main
goroutine logs nothing between the start of the loop and the return of
`Close`, so the lines of the `OnFailure` calls come before the report. -/
def closeAndReport (env : ImportEnv) (st : LoopState) : ImportRun :=
  match st.exited with
  | some code => { calls := st.calls, log := st.log, exit := code }
  | none =>
    match bulkIndexerClose .Background with
    | some err =>
      { calls := st.calls
        log := st.log ++ [(Sprintf "Error closing bulk indexer: %s".toList [.err err]).getD []]
        exit := 1 }
    | none =>
      let stats := env.stats st.added
      let line :=
        if stats.NumFailed > 0 then
          (Sprintf "Indexed %d documents with %d failures\n".toList
            [.int stats.NumFlushed, .int stats.NumFailed]).getD []
        else
          (Sprintf "Successfully indexed %d documents\n".toList [.int stats.NumFlushed]).getD []
      { calls := st.calls
        log := st.log ++ (env.failures st.added).map failureLine ++ [line]
        exit := 0 }

/-- The function `main` of `import/main.go`. -/
def importMain (flags : ImportFlags) (env : ImportEnv) : ImportRun :=
  let jsonFilePath := flags.file.getD []
  let esHost := flags.host.getD "https://localhost:9200".toList
  let esUsername := flags.username.getD []
  let esPassword := flags.password.getD []
  let indexName := flags.index.getD "bible".toList
  if jsonFilePath = [] then
    .fatal "JSON file path was empty. Usage: ./import -file='path/to/your/bible_data.json'".toList
  else
    match env.readFile jsonFilePath with
    | .error err => .fatal ((Sprintf "Failed to read JSON file: %s".toList [.err err]).getD [])
    | .ok data =>
      match env.unmarshal (stripBOM data) with
      | .error err => .fatal ((Sprintf "Failed to unmarshal JSON: %s".toList [.err err]).getD [])
      | .ok booksData =>
        let cfg : Config :=
          { Addresses := [esHost], Username := esUsername, Password := esPassword }
        match env.newClient cfg with
        | some err => .fatal ((Sprintf "Error creating the client: %s".toList [.err err]).getD [])
        | none =>
          match env.newBulkIndexer
              { Index := indexName, NumWorkers := 4, FlushBytes := 5000000, FlushInterval := 30 } with
          | some err =>
            .fatal ((Sprintf "Error creating the bulk indexer: %s".toList [.err err]).getD [])
          | none =>
            closeAndReport env (ingestLoop env booksData .init)

/-- The setup of the ingestion program succeeds with corpus `booksData`: the
file path is given, the file is read and parsed, and the store client and the
bulk indexer are constructed (lines 36-79). -/
def setupSucceeds (flags : ImportFlags) (env : ImportEnv) (booksData : List BookData) : Prop :=
  ∃ path data, flags.file = some path ∧ path ≠ [] ∧
    env.readFile path = .ok data ∧
    env.unmarshal (stripBOM data) = .ok booksData ∧
    env.newClient
      { Addresses := [flags.host.getD "https://localhost:9200".toList]
        Username := flags.username.getD []
        Password := flags.password.getD [] } = none ∧
    env.newBulkIndexer
      { Index := flags.index.getD "bible".toList
        NumWorkers := 4, FlushBytes := 5000000, FlushInterval := 30 } = none

/-- One document per verse, in corpus order: books in order, within a book the
chapters in order, within a chapter the verses in order. -/
def corpusItems (env : ImportEnv) (booksData : List BookData) : List BulkIndexerItem :=
  booksData.flatMap fun book =>
    book.Chapters.enum.flatMap fun chapter =>
      chapter.2.enum.map fun verse =>
        verseItem (env.marshal (verseDoc book chapter.1 verse.1 verse.2))
          (docID book.Abbrev chapter.1 verse.1)

/-- The number of verses of a corpus: the sum over all books and chapters of
the chapter's verse count. -/
def verseCount (booksData : List BookData) : Nat :=
  (booksData.map fun book => (book.Chapters.map List.length).sum).sum

/-- The part of the loop body that follows the encoding (lines 99-116): one
`Add` call on a built item. -/
def feed (_env : ImportEnv) (st : LoopState) (item : BulkIndexerItem) : LoopState :=
  match st.exited with
  | some _ => st
  | none =>
    match bulkIndexerAdd .Background item with
    | some err =>
      { calls := st.calls ++ [(item, some err)]
        log := st.log ++
          [(Sprintf "Error adding document to bulk indexer: %s".toList [.err err]).getD []]
        exited := some 1 }
    | none => { st with calls := st.calls ++ [(item, none)] }

/-- A loop state is consistent when it has not exited and records no failed
call, or has exited with status 1 and records a failed call. -/
def LoopState.consistent (st : LoopState) : Prop :=
  (st.exited = none ∧ ∀ p ∈ st.calls, p.2 = none) ∨
    (st.exited = some 1 ∧ ∃ p ∈ st.calls, p.2 ≠ none)

/-! ### A small corpus and an environment, used as concrete inputs -/

/-- A corpus of two books: three verses in two non-empty chapters and one empty
chapter, and a book without chapters. -/
def sampleBooks : List BookData :=
  [{ Abbrev := "gn".toList
     Chapters := [["In the beginning".toList, "And the earth".toList], [], ["Thus".toList]] },
   { Abbrev := "ex".toList, Chapters := [] }]

/-- The bytes of a string of ASCII characters. -/
def asciiBytes (s : GoString) : List UInt8 :=
  s.map fun c => c.toNat.toUInt8

/-- A compact rendering of a document, one `key=value;` per entry, standing in
for the JSON encoding in concrete inputs. -/
def sampleMarshal (doc : Doc) : List UInt8 :=
  doc.flatMap fun e => asciiBytes (e.1 ++ '=' :: fmtDefault e.2 ++ [';'])

/-- An environment in which the setup succeeds and the store rejects the
second document: its `OnFailure` callback is called and the statistics report
one failed document. -/
def sampleImportEnv : ImportEnv where
  readFile := fun _ => .ok [0xEF, 0xBB, 0xBF, 0x5B, 0x5D]
  unmarshal := fun _ => .ok sampleBooks
  newClient := fun _ => none
  newBulkIndexer := fun _ => none
  marshal := sampleMarshal
  failures := fun added =>
    (added.drop 1).take 1 |>.map fun item => (item, "mapper_parsing_exception".toList)
  stats := fun added => { NumFlushed := added.length - 1, NumFailed := 1 }

/-- The command line `./import -file=bible.json`. -/
def sampleImportFlags : ImportFlags :=
  { file := some "bible.json".toList, host := none, username := none, password := none,
    index := none }

/-! ## The query program (`search/main.go`) -/

/-! ### Configuration (lines 39-84) -/

/-- The process environment: `none` for a variable that is not set. -/
abbrev Environ := GoString → Option GoString

/-- The function `os.Getenv`: the value of the variable, empty when it is not
set. -/
def Getenv (environ : Environ) (key : GoString) : GoString :=
  (environ key).getD []

/-- The digit loop of `strconv.Atoi`: `ch -= '0'; if ch > 9 { syntax error };
n = n*10 + int(ch)`. -/
def atoiDigits : GoString → Nat → Option Nat
  | [], n => some n
  | ch :: rest, n =>
    if '0'.toNat ≤ ch.toNat ∧ ch.toNat - '0'.toNat ≤ 9 then
      atoiDigits rest (n * 10 + (ch.toNat - '0'.toNat))
    else none

/-- The function `strconv.Atoi` on a 64-bit platform: an optional sign, then
one or more decimal digits; a value outside the range of `int` is an error.
The `Option` is `none` for a returned error. -/
def Atoi (s : GoString) : Option Int :=
  let digits := match s with
    | '-' :: rest => rest
    | '+' :: rest => rest
    | _ => s
  if digits = [] then none
  else
    match atoiDigits digits 0 with
    | none => none
    | some n =>
      let v : Int := if s.head? = some '-' then -(n : Int) else (n : Int)
      if -(2 ^ 63 : Int) ≤ v ∧ v < 2 ^ 63 then some v else none

/-- The six flags of the query program after `flag.Parse` (lines 48-54);
`none` is a flag that was not given. -/
structure SearchFlags where
  host : Option GoString
  index : Option GoString
  username : Option GoString
  password : Option GoString
  text : Option GoString
  max : Option Int
  deriving DecidableEq, Repr

/-- The six variables of `main` (lines 39-46). -/
structure SearchConfig where
  esHost : GoString
  esIndex : GoString
  esUsername : GoString
  esPassword : GoString
  searchText : GoString
  maxResults : Int
  deriving DecidableEq, Repr

/-- Lines 48-54: every variable holds its flag's value, or the flag's default
when the flag was not given. -/
def parseFlags (flags : SearchFlags) : SearchConfig :=
  { esHost := flags.host.getD "https://localhost:9200".toList
    esIndex := flags.index.getD "bible".toList
    esUsername := flags.username.getD []
    esPassword := flags.password.getD []
    searchText := flags.text.getD []
    maxResults := flags.max.getD 25 }

/-- Lines 56-78: the environment overrides.  The result is `none` when
`log.Fatalf` ends the process because `MAX_RESULTS` does not parse. -/
def applyEnviron (environ : Environ) (c : SearchConfig) : Option SearchConfig :=
  let c := if Getenv environ "ES_HOST".toList ≠ [] then
    { c with esHost := Getenv environ "ES_HOST".toList } else c
  let c := if Getenv environ "ES_INDEX".toList ≠ [] then
    { c with esIndex := Getenv environ "ES_INDEX".toList } else c
  let c := if Getenv environ "ES_USERNAME".toList ≠ [] then
    { c with esUsername := Getenv environ "ES_USERNAME".toList } else c
  let c := if Getenv environ "ES_PASSWORD".toList ≠ [] then
    { c with esPassword := Getenv environ "ES_PASSWORD".toList } else c
  let c := if Getenv environ "SEARCH_TEXT".toList ≠ [] then
    { c with searchText := Getenv environ "SEARCH_TEXT".toList } else c
  if Getenv environ "MAX_RESULTS".toList ≠ [] then
    match Atoi (Getenv environ "MAX_RESULTS".toList) with
    | none => none
    | some n => some { c with maxResults := n }
  else some c

/-- Lines 48-78: the effective configuration of a run. -/
def resolveConfig (flags : SearchFlags) (environ : Environ) : Option SearchConfig :=
  applyEnviron environ (parseFlags flags)

/-- Line 81: a required setting is missing. -/
def missingRequired (c : SearchConfig) : Bool :=
  c.esHost == [] || c.esIndex == [] || c.esUsername == [] || c.esPassword == [] ||
    c.searchText == []

/-- The five string settings of the query program. -/
inductive Setting where
  | host | index | username | password | text
  deriving DecidableEq, Repr

/-- The environment variable of a string setting. -/
def Setting.envKey : Setting → GoString
  | .host => "ES_HOST".toList
  | .index => "ES_INDEX".toList
  | .username => "ES_USERNAME".toList
  | .password => "ES_PASSWORD".toList
  | .text => "SEARCH_TEXT".toList

/-- The flag value of a string setting: the value given on the command line,
or the flag's default. -/
def Setting.flagValue (flags : SearchFlags) : Setting → GoString
  | .host => flags.host.getD "https://localhost:9200".toList
  | .index => flags.index.getD "bible".toList
  | .username => flags.username.getD []
  | .password => flags.password.getD []
  | .text => flags.text.getD []

/-- The effective value of a string setting. -/
def Setting.effective (c : SearchConfig) : Setting → GoString
  | .host => c.esHost
  | .index => c.esIndex
  | .username => c.esUsername
  | .password => c.esPassword
  | .text => c.searchText

/-! ### The fragment of package `regexp` used for highlighting (lines 86, 170) -/

/-- The constant `specialBytes` behind `regexp.QuoteMeta`. -/
def specialBytes : GoString := "\\.+*?()|[]{}^$".toList

/-- The function `special` of package `regexp`. -/
def special (c : Char) : Bool := specialBytes.contains c

/-- The function `regexp.QuoteMeta`: every metacharacter gets a backslash in
front of it, every other character is copied. -/
def QuoteMeta (s : GoString) : GoString :=
  s.flatMap fun c => if special c then ['\\', c] else [c]

/-- One rune instruction of a compiled pattern: the literal rune and whether
the `FoldCase` flag is set on it. -/
structure RuneInst where
  rune : Char
  foldCase : Bool
  deriving DecidableEq, Repr

/-- The function `isalnum` of package `regexp/syntax`. -/
def isalnum (c : Char) : Bool :=
  ('0' ≤ c ∧ c ≤ '9') || ('A' ≤ c ∧ c ≤ 'Z') || ('a' ≤ c ∧ c ≤ 'z')

/-- The parser of `regexp.Compile`, for the patterns that consist of the flag
group `(?i)`, backslash-escaped punctuation and literal runes; such a pattern
compiles to one rune instruction per literal.  An escaped ASCII character
that is not alphanumeric stands for itself.  The result is `none` for a
pattern outside this fragment. -/
def parsePattern (foldCase : Bool) : GoString → Option (List RuneInst)
  | [] => some []
  | c :: rest =>
    if c = '(' then
      match rest with
      | '?' :: 'i' :: ')' :: rest' => parsePattern true rest'
      | _ => none
    else if c = '\\' then
      match rest with
      | e :: rest' =>
        if e.toNat < 128 ∧ ¬ isalnum e then
          (parsePattern foldCase rest').map (⟨e, foldCase⟩ :: ·)
        else none
      | [] => none
    else if special c then none
    else (parsePattern foldCase rest).map (⟨c, foldCase⟩ :: ·)

/-- The function `regexp.Compile` on the fragment of `parsePattern`. -/
def Compile (pattern : GoString) : Option (List RuneInst) :=
  parsePattern false pattern

/-- The method `Inst.MatchRunePos` for a literal: the rune itself matches, and under
`FoldCase` so does every rune that `unicode.SimpleFold` reaches from it.
`foldOrbit r0` lists those runes (the table of package `unicode`). -/
def matchRune (foldOrbit : Char → List Char) (i : RuneInst) (r : Char) : Bool :=
  r == i.rune || (i.foldCase && (foldOrbit i.rune).contains r)

/-- The compiled pattern matches at the start of the input. -/
def matchHere (foldOrbit : Char → List Char) : List RuneInst → GoString → Bool
  | [], _ => true
  | _ :: _, [] => false
  | i :: prog, r :: input => matchRune foldOrbit i r && matchHere foldOrbit prog input

/-- The leftmost match in `input`, which starts at position `pos` of the
whole text: the positions where the match starts and ends. -/
def findMatch (foldOrbit : Char → List Char) (prog : List RuneInst) :
    GoString → Nat → Option (Nat × Nat)
  | [], pos => if matchHere foldOrbit prog [] then some (pos, pos) else none
  | r :: input, pos =>
    if matchHere foldOrbit prog (r :: input) then some (pos, pos + prog.length)
    else findMatch foldOrbit prog input (pos + 1)

/-- The call `re.doExecute(nil, nil, src, pos, ...)`: the leftmost match at or
after `pos`, as the pair `a[0], a[1]`.  Positions count runes. -/
def doExecute (foldOrbit : Char → List Char) (prog : List RuneInst) (src : GoString)
    (pos : Nat) : Option (Nat × Nat) :=
  findMatch foldOrbit prog (src.drop pos) pos

/-- The loop of `Regexp.replaceAll`, `for searchPos <= len(src) { ... }`, and
the copy of the unmatched tail after it.  The first argument bounds the number
of iterations; `none` when it is used up. -/
def replaceAllLoop (foldOrbit : Char → List Char) (prog : List RuneInst) (src : GoString)
    (repl : GoString → GoString) : Nat → Nat → Nat → GoString → Option GoString
  | 0, _, _, _ => none
  | fuel + 1, lastMatchEnd, searchPos, buf =>
    if searchPos ≤ src.length then
      match doExecute foldOrbit prog src searchPos with
      | none => some (buf ++ src.drop lastMatchEnd)
      | some (a0, a1) =>
        let buf := buf ++ (src.drop lastMatchEnd).take (a0 - lastMatchEnd)
        let buf :=
          if a1 > lastMatchEnd ∨ a0 = 0 then buf ++ repl ((src.drop a0).take (a1 - a0))
          else buf
        let width := if searchPos < src.length then 1 else 0
        let searchPos :=
          if searchPos + width > a1 then searchPos + width
          else if searchPos + 1 > a1 then searchPos + 1
          else a1
        replaceAllLoop foldOrbit prog src repl fuel a1 searchPos buf
    else some (buf ++ src.drop lastMatchEnd)

/-- The method `Regexp.ReplaceAllStringFunc`.  Every iteration of the loop
moves `searchPos` forward, so `len(src) + 2` iterations always suffice. -/
def ReplaceAllStringFunc (foldOrbit : Char → List Char) (prog : List RuneInst)
    (src : GoString) (repl : GoString → GoString) : Option GoString :=
  replaceAllLoop foldOrbit prog src repl (src.length + 2) 0 0 []

/-- Lines 86 and 170-172: the verse text with every match of the compiled
search term replaced by `green(match)`. -/
def highlightText (foldOrbit : Char → List Char) (green : GoString → GoString)
    (searchText text : GoString) : Option GoString :=
  match Compile ("(?i)".toList ++ QuoteMeta searchText) with
  | none => none
  | some prog => ReplaceAllStringFunc foldOrbit prog text green

/-! ### Literal case-insensitive scanning, as the specification words it -/

/-- Rune `r` of the text is rune `t` of the term up to case. -/
def eqFold (foldOrbit : Char → List Char) (t r : Char) : Bool :=
  r == t || (foldOrbit t).contains r

/-- The term occurs, up to case, at the start of the text. -/
def occursAt (foldOrbit : Char → List Char) : GoString → GoString → Bool
  | [], _ => true
  | _ :: _, [] => false
  | t :: term, r :: text => eqFold foldOrbit t r && occursAt foldOrbit term text

/-- Scanning the text from left to right: where the term occurs, the occurrence
is wrapped in the marker, in its original case, and the scan goes on behind it;
anywhere else the character is copied. -/
def markOccurrences (foldOrbit : Char → List Char) (marker : GoString → GoString)
    (term : GoString) (text : GoString) : GoString :=
  match text with
  | [] => []
  | r :: rest =>
    if term ≠ [] ∧ occursAt foldOrbit term (r :: rest) then
      marker ((r :: rest).take term.length) ++
        markOccurrences foldOrbit marker term ((r :: rest).drop term.length)
    else r :: markOccurrences foldOrbit marker term rest
termination_by text.length
decreasing_by
  all_goals simp_wf
  · rename_i h
    have : 0 < term.length := List.length_pos.mpr h.1
    omega

/-! ### The store reply and the report (lines 20-36 and 140-175) -/

/-- A Go `float64`, as its IEEE-754 bit pattern; the zero value is `+0`. -/
structure Float64 where
  bits : Nat
  deriving DecidableEq, Repr

/-- The field `_source` of a hit (lines 26-31). -/
structure Source where
  Book : GoString
  Chapter : Int
  Verse : Int
  Text : GoString
  deriving DecidableEq, Repr

/-- One element of `hits.hits` (lines 25-34). -/
structure Hit where
  Source : Source
  Highlight : List (GoString × List GoString)
  Score : Float64
  deriving DecidableEq, Repr

/-- The struct `SearchResult` (lines 20-36): `Total` is `hits.total.value`
and `Hits` is `hits.hits`. -/
structure SearchResult where
  Total : Int
  Hits : List Hit
  deriving DecidableEq, Repr

/-- The zero value of `SearchResult`, which `var r SearchResult` declares and
which `Decode` leaves untouched wherever the body has no matching key. -/
def SearchResult.zero : SearchResult :=
  { Total := 0, Hits := [] }

/-- The request body of lines 106-133: both clauses ask for `searchText` in
the field `en`, and `size` is `maxResults`. -/
structure Query where
  matchQuery : GoString
  fuzziness : GoString
  matchPhrase : GoString
  minimumShouldMatch : Int
  highlightField : GoString
  size : Int
  deriving DecidableEq, Repr

/-- What `es.Search` and the decoding of its body deliver (lines 140-154):
either the transport fails, or the store replies with an HTTP status and a
body; `decoded` is the result of `json.NewDecoder(res.Body).Decode(&r)`, an
error or the value left in `r`. -/
inductive SearchOutcome where
  | transportError (err : GoString)
  | response (StatusCode : Nat) (decoded : Except GoString SearchResult)

/-- The method `esapi.Response.IsError`: the status code is above 299. -/
def IsError (StatusCode : Nat) : Bool := StatusCode > 299

/-- Everything outside the program that a query run depends on.  -/
structure SearchEnv where
  /-- The process environment. -/
  environ : Environ
  /-- The orbits of `unicode.SimpleFold`. -/
  foldOrbit : Char → List Char
  /-- The three `color.New(...).SprintFunc()` of lines 161-163. -/
  blue : GoString → GoString
  magenta : GoString → GoString
  green : GoString → GoString
  /-- The call `fmt.Sprintf("[%.4f]", hit.Score)`. -/
  formatScore : Float64 → GoString
  /-- The call `elasticsearch.NewClient(cfg)`. -/
  newClient : Config → Option GoString
  /-- The call `es.Search(...)` on an index with a request body. -/
  search : GoString → Query → SearchOutcome

/-- The outcome of a run of the query program: what it wrote to standard
output and its exit status. -/
structure SearchRun where
  stdout : List GoString
  exit : Nat
  deriving DecidableEq, Repr

/-- The line printed at line 157. -/
def noResults : GoString := "No results found.\n".toList

/-- Lines 166-174: the line printed for one hit. -/
def hitLine (env : SearchEnv) (prog : List RuneInst) (hit : Hit) : GoString :=
  let bookChapterVerse := env.blue ((Sprintf "%s %d:%d".toList
    [.str hit.Source.Book, .int hit.Source.Chapter, .int hit.Source.Verse]).getD [])
  let score := env.magenta (env.formatScore hit.Score)
  let verseTextHighlighted :=
    (ReplaceAllStringFunc env.foldOrbit prog hit.Source.Text env.green).getD []
  (Sprintf "%s %s %s\n".toList
    [.str bookChapterVerse, .str verseTextHighlighted, .str score]).getD []

/-- Lines 156-175: the report on a decoded reply. -/
def report (env : SearchEnv) (prog : List RuneInst) (r : SearchResult) : SearchRun :=
  if r.Total = 0 then
    { stdout := [noResults], exit := 0 }
  else
    { stdout := r.Hits.map (hitLine env prog), exit := 0 }

/-- Lines 106-133: the request body. -/
def buildQuery (c : SearchConfig) : Query :=
  { matchQuery := c.searchText
    fuzziness := "AUTO".toList
    matchPhrase := c.searchText
    minimumShouldMatch := 1
    highlightField := "en".toList
    size := c.maxResults }

/-- Lines 86-175: the run of the program once its configuration is resolved.
`log.Fatalf` ends the process with status 1; returning from `main` ends it with
status 0.  Of the line printed when the pattern does not compile, the text of
the error after the colon is left out. -/
def runQuery (env : SearchEnv) (c : SearchConfig) : SearchRun :=
  if missingRequired c then
    { stdout := [("Missing required configurations. Please set via environment " ++
        "variables or command-line arguments.\n").toList], exit := 1 }
  else
    match Compile ("(?i)".toList ++ QuoteMeta c.searchText) with
    | none => { stdout := ["Error compiling regex: ".toList], exit := 0 }
    | some prog =>
      match env.newClient
          { Addresses := [c.esHost], Username := c.esUsername, Password := c.esPassword } with
      | some _ => { stdout := [], exit := 1 }
      | none =>
        match env.search c.esIndex (buildQuery c) with
        | .transportError _ => { stdout := [], exit := 1 }
        | .response _ (.error _) => { stdout := [], exit := 1 }
        | .response _ (.ok r) => report env prog r

/-- The function `main` of `search/main.go`. -/
def searchMain (flags : SearchFlags) (env : SearchEnv) : SearchRun :=
  match resolveConfig flags env.environ with
  | none => { stdout := [], exit := 1 }
  | some c => runQuery env c

/-! ### Concrete inputs for the query program -/

/-- The orbits of `unicode.SimpleFold` on the ASCII characters: a letter reaches
its other case, and `k` and `s` also reach the Kelvin sign and the long s.  Used
for concrete inputs whose search term is ASCII. -/
def asciiFoldOrbit (c : Char) : List Char :=
  if c = 'k' then ['\u212A', 'K']
  else if c = 'K' then ['k', '\u212A']
  else if c = 's' then ['\u017F', 'S']
  else if c = 'S' then ['s', '\u017F']
  else if c.isLower then [c.toUpper]
  else if c.isUpper then [c.toLower]
  else []

/-- The wrapper that package `color` puts around a text when colour is
enabled: the escape sequence of the attribute in front, the reset sequence
behind. -/
def ansiColor (code : GoString) (s : GoString) : GoString :=
  '\x1b' :: '[' :: code ++ 'm' :: s ++ "\x1b[0m".toList

/-- A hit for Hebrews 11:1. -/
def sampleHit : Hit :=
  { Source := { Book := "hb".toList, Chapter := 11, Verse := 1
                Text := "Now Faith is the substance".toList }
    Highlight := []
    Score := { bits := 0x4014000000000000 } }

/-- An environment with the credentials in the process environment and a
store that answers every query with HTTP status `status` and a body that
decodes to `reply`. -/
def sampleSearchEnv (status : Nat) (reply : Except GoString SearchResult) : SearchEnv where
  environ := fun key =>
    if key = "ES_USERNAME".toList then some "elastic".toList
    else if key = "ES_PASSWORD".toList then some "changeme".toList
    else none
  foldOrbit := asciiFoldOrbit
  blue := ansiColor "34".toList
  magenta := ansiColor "35".toList
  green := ansiColor "32".toList
  formatScore := fun _ => "[5.0000]".toList
  newClient := fun _ => none
  search := fun _ _ => .response status reply

/-- The command line `./search -text=faith`. -/
def sampleSearchFlags : SearchFlags :=
  { host := none, index := none, username := none, password := none,
    text := some "faith".toList, max := none }

/-- The command line `./search -host=https://es:9200 -max=10`. -/
def overrideFlags : SearchFlags :=
  { host := some "https://es:9200".toList, index := none, username := none, password := none,
    text := none, max := some 10 }

/-- A process environment in which `MAX_RESULTS` is set to `ten`. -/
def badMaxEnviron : Environ := fun key =>
  if key = "MAX_RESULTS".toList then some "ten".toList else none

/-- A process environment in which `MAX_RESULTS` is set to 2^63, one above the
largest `int`. -/
def hugeMaxEnviron : Environ := fun key =>
  if key = "MAX_RESULTS".toList then some "9223372036854775808".toList else none

/-! ## Theorems: document identifiers (lines 84-85) -/

theorem ofNat_digitChar (d : Nat) (h : d < 10) : Char.ofNat (48 + d) = Nat.digitChar d := by
  interval_cases d <;> rfl

theorem ldigits_digitChar (d : Nat) (h : d < 10) : ldigits.getD d '0' = Nat.digitChar d := by
  interval_cases d <;> rfl

theorem fmtDigitsLoop_toDigitsCore (fuel : Nat) :
    ∀ (fuel' u : Nat) (buf : GoString), u ≤ fuel → u < fuel' →
      fmtDigitsLoop fuel u buf = Nat.toDigitsCore 10 fuel' u buf := by
  induction fuel with
  | zero =>
    intro fuel' u buf hu hf
    obtain rfl : u = 0 := by omega
    obtain ⟨k, rfl⟩ : ∃ k, fuel' = k + 1 := ⟨fuel' - 1, by omega⟩
    simp [fmtDigitsLoop, Nat.toDigitsCore]
    rfl
  | succ n ih =>
    intro fuel' u buf hu hf
    obtain ⟨k, rfl⟩ : ∃ k, fuel' = k + 1 := ⟨fuel' - 1, by omega⟩
    simp only [fmtDigitsLoop, Nat.toDigitsCore]
    by_cases h10 : 10 ≤ u
    · have hne : u / 10 ≠ 0 := by omega
      have hsub : u - u / 10 * 10 = u % 10 := by omega
      simp only [h10, if_true, hne, if_false, hsub]
      rw [ofNat_digitChar _ (Nat.mod_lt _ (by decide))]
      exact ih k (u / 10) _ (by omega) (by omega)
    · have hz : u / 10 = 0 := by omega
      have hm : u % 10 = u := by omega
      simp only [h10, if_false, hz, if_true, hm]
      rw [ldigits_digitChar u (by omega)]

theorem fmtDigits_toDigits (u : Nat) : fmtDigits u [] = Nat.toDigits 10 u :=
  fmtDigitsLoop_toDigitsCore u (u + 1) u [] (Nat.le_refl _) (Nat.lt_succ_self _)

theorem fmtInteger_natCast_succ (n : Nat) :
    fmtInteger ((n : Int) + 1) = (Nat.repr (n + 1)).toList := by
  have h : ¬ ((n : Int) + 1 < 0) := by omega
  have h2 : ((n : Int) + 1).natAbs = n + 1 := by omega
  simp only [fmtInteger, h, if_false, h2, fmtDigits_toDigits, Nat.repr, List.asString]
  rfl

theorem docID_eq (a : GoString) (c v : Nat) :
    docID a c v = a ++ "-".toList ++ (Nat.repr (c + 1)).toList ++ "-".toList ++ (Nat.repr (v + 1)).toList := by
  simp [docID, Sprintf, fmtInteger_natCast_succ]

theorem fmtDigitsLoop_append (fuel : Nat) :
    ∀ (u : Nat) (buf : GoString), fmtDigitsLoop fuel u buf = fmtDigitsLoop fuel u [] ++ buf := by
  induction fuel with
  | zero => intro u buf; simp [fmtDigitsLoop]
  | succ n ih =>
    intro u buf
    simp only [fmtDigitsLoop]
    split
    · rw [ih _ (_ :: buf), ih _ [_]]; simp
    · simp

theorem atoiDigits_append (xs ys : GoString) :
    ∀ n, atoiDigits (xs ++ ys) n = (atoiDigits xs n).bind (atoiDigits ys) := by
  induction xs with
  | nil => intro n; simp [atoiDigits]
  | cons x xs ih =>
    intro n
    simp only [List.cons_append, atoiDigits]
    split
    · exact ih _
    · rfl

theorem atoiDigits_digit (d acc : Nat) (h : d < 10) :
    atoiDigits [Char.ofNat (48 + d)] acc = some (acc * 10 + d) ∧
      atoiDigits [ldigits.getD d '0'] acc = some (acc * 10 + d) := by
  interval_cases d <;> exact ⟨rfl, rfl⟩

theorem atoiDigits_fmtDigitsLoop (fuel : Nat) :
    ∀ u, u ≤ fuel → atoiDigits (fmtDigitsLoop fuel u []) 0 = some u := by
  induction fuel with
  | zero =>
    intro u hu
    obtain rfl : u = 0 := by omega
    rfl
  | succ n ih =>
    intro u hu
    simp only [fmtDigitsLoop]
    by_cases h10 : 10 ≤ u
    · simp only [h10, if_true]
      rw [fmtDigitsLoop_append, atoiDigits_append, ih _ (by omega)]
      simp only [Option.bind]
      rw [(atoiDigits_digit (u - u / 10 * 10) (u / 10) (by omega)).1]
      congr 1; omega
    · simp only [h10, if_false]
      rw [(atoiDigits_digit u 0 (by omega)).2]
      simp

theorem atoiDigits_fmtDigits (u : Nat) : atoiDigits (fmtDigits u []) 0 = some u :=
  atoiDigits_fmtDigitsLoop u u (Nat.le_refl _)

theorem fmtDigits_injective (u v : Nat) (h : fmtDigits u [] = fmtDigits v []) : u = v := by
  have hu := atoiDigits_fmtDigits u
  rw [h, atoiDigits_fmtDigits] at hu
  exact (Option.some.inj hu).symm

theorem atoiDigits_no_dash (xs : GoString) : ∀ n m, atoiDigits xs n = some m → '-' ∉ xs := by
  induction xs with
  | nil => intro n m _; simp
  | cons x xs ih =>
    intro n m h
    simp only [atoiDigits] at h
    split at h
    · rename_i hx
      intro hmem
      rcases List.mem_cons.mp hmem with rfl | hmem
      · revert hx; decide
      · exact ih _ _ h hmem
    · cases h

theorem fmtDigits_no_dash (u : Nat) : '-' ∉ fmtDigits u [] :=
  atoiDigits_no_dash _ _ _ (atoiDigits_fmtDigits u)

theorem split_at_dash (p : GoString) :
    ∀ (q r s : GoString), '-' ∉ p → '-' ∉ q → p ++ '-' :: r = q ++ '-' :: s → p = q ∧ r = s := by
  induction p with
  | nil =>
    intro q r s _ hq h
    cases q with
    | nil => simpa using h
    | cons y q =>
      simp only [List.nil_append, List.cons_append, List.cons.injEq] at h
      exact absurd (h.1 ▸ List.mem_cons_self _ _) hq
  | cons x p ih =>
    intro q r s hp hq h
    cases q with
    | nil =>
      simp only [List.nil_append, List.cons_append, List.cons.injEq] at h
      exact absurd (h.1 ▸ List.mem_cons_self _ _) hp
    | cons y q =>
      simp only [List.cons_append, List.cons.injEq] at h
      obtain ⟨rfl, h⟩ := h
      have := ih q r s (fun hm => hp (List.mem_cons_of_mem _ hm))
        (fun hm => hq (List.mem_cons_of_mem _ hm)) h
      exact ⟨by rw [this.1], this.2⟩

theorem split_at_last_dash (a b d e : GoString) (hd : '-' ∉ d) (he : '-' ∉ e)
    (h : a ++ '-' :: d = b ++ '-' :: e) : a = b ∧ d = e := by
  have h' := congrArg List.reverse h
  simp only [List.reverse_append, List.reverse_cons, List.append_assoc, List.singleton_append] at h'
  have := split_at_dash d.reverse e.reverse a.reverse b.reverse
    (by simpa using hd) (by simpa using he) h'
  exact ⟨List.reverse_injective this.2, List.reverse_injective this.1⟩

theorem docID_fmtDigits (a : GoString) (c v : Nat) :
    docID a c v = (a ++ '-' :: fmtDigits (c + 1) []) ++ '-' :: fmtDigits (v + 1) [] := by
  have h : ∀ n : Nat, fmtInteger ((n : Int) + 1) = fmtDigits (n + 1) [] := by
    intro n
    have h1 : ¬ ((n : Int) + 1 < 0) := by omega
    have h2 : ((n : Int) + 1).natAbs = n + 1 := by omega
    simp only [fmtInteger, h1, if_false, h2]
  simp [docID, Sprintf, h]

theorem docID_injective (a1 a2 : GoString) (c1 v1 c2 v2 : Nat)
    (h : docID a1 c1 v1 = docID a2 c2 v2) : a1 = a2 ∧ c1 = c2 ∧ v1 = v2 := by
  rw [docID_fmtDigits, docID_fmtDigits] at h
  obtain ⟨h1, hv⟩ := split_at_last_dash _ _ _ _ (fmtDigits_no_dash _) (fmtDigits_no_dash _) h
  obtain ⟨ha, hc⟩ := split_at_last_dash _ _ _ _ (fmtDigits_no_dash _) (fmtDigits_no_dash _) h1
  have := fmtDigits_injective _ _ hc
  have := fmtDigits_injective _ _ hv
  exact ⟨ha, by omega, by omega⟩


/-! ## Theorems: the ingestion loop (lines 81-131) -/

theorem verseBody_eq_feed (env : ImportEnv) (book : BookData) (c : Nat) (st : LoopState)
    (verse : Nat × GoString) :
    verseBody env book c st verse =
      feed env st (verseItem (env.marshal (verseDoc book c verse.1 verse.2))
        (docID book.Abbrev c verse.1)) := by
  rfl

theorem foldl_flatMap_eq {α β γ : Type} (f : γ → β → γ) (g : α → List β) (l : List α) :
    ∀ b : γ, List.foldl f b (l.flatMap g) = List.foldl (fun b x => List.foldl f b (g x)) b l := by
  induction l with
  | nil => intro b; rfl
  | cons x xs ih => intro b; simp [List.flatMap_cons, List.foldl_append, ih]

theorem ingestLoop_eq_foldl (env : ImportEnv) (books : List BookData) (st : LoopState) :
    ingestLoop env books st = (corpusItems env books).foldl (feed env) st := by
  unfold ingestLoop corpusItems
  rw [foldl_flatMap_eq]
  congr 1
  funext st book
  rw [foldl_flatMap_eq]
  congr 1
  funext st chapter
  rw [List.foldl_map]
  unfold chapterBody
  congr 1

theorem foldl_feed_exited (env : ImportEnv) (items : List BulkIndexerItem) (st : LoopState)
    (code : Nat) (h : st.exited = some code) : items.foldl (feed env) st = st := by
  induction items with
  | nil => rfl
  | cons x xs ih =>
    have : feed env st x = st := by simp [feed, h]
    simp [List.foldl_cons, this, ih]

theorem feed_not_exited (env : ImportEnv) (st : LoopState) (x : BulkIndexerItem)
    (h : st.exited = none) : (feed env st x).exited = none := by
  simp [feed, h, bulkIndexerAdd, Context.Err]

theorem foldl_feed_not_exited (env : ImportEnv) (items : List BulkIndexerItem) :
    ∀ st : LoopState, st.exited = none → (items.foldl (feed env) st).exited = none := by
  induction items with
  | nil => intro st h; exact h
  | cons x xs ih =>
    intro st h
    rw [List.foldl_cons]
    exact ih _ (feed_not_exited env st x h)

theorem foldl_feed_spec (env : ImportEnv) (items : List BulkIndexerItem) :
    ∀ st : LoopState, st.consistent →
      (items.foldl (feed env) st).consistent ∧
      (∃ k, k ≤ items.length ∧
        (items.foldl (feed env) st).added = st.added ++ items.take k ∧
        ((items.foldl (feed env) st).exited = none → k = items.length)) := by
  induction items with
  | nil =>
    intro st hst
    exact ⟨hst, 0, Nat.le_refl _, by simp, fun _ => rfl⟩
  | cons x xs ih =>
    intro st hst
    rw [List.foldl_cons]
    rcases hst with ⟨hex, hall⟩ | ⟨hex, hsome⟩
    · cases hadd : bulkIndexerAdd Context.Background x with
      | none =>
        have hfeed : feed env st x = { st with calls := st.calls ++ [(x, none)] } := by
          simp [feed, hex, hadd]
        have hcons : (feed env st x).consistent := by
          left
          rw [hfeed]
          refine ⟨hex, ?_⟩
          intro p hp
          rcases List.mem_append.mp hp with hp | hp
          · exact hall p hp
          · simp at hp; rw [hp]
        obtain ⟨hc, k, hk, hadded, hlen⟩ := ih _ hcons
        refine ⟨hc, k + 1, by simp; omega, ?_, fun h => by simp [hlen h]⟩
        rw [hadded, hfeed]
        simp [LoopState.added]
      | some err =>
        have hfeed : feed env st x = { calls := st.calls ++ [(x, some err)]
                                       log := st.log ++ [(Sprintf "Error adding document to bulk indexer: %s".toList [.err err]).getD []]
                                       exited := some 1 } := by
          simp [feed, hex, hadd]
        rw [foldl_feed_exited env xs _ 1 (by rw [hfeed])]
        refine ⟨?_, 1, by simp, ?_, ?_⟩
        · right
          rw [hfeed]
          exact ⟨rfl, (x, some err), by simp, by simp⟩
        · rw [hfeed]; simp [LoopState.added]
        · rw [hfeed]; simp
    · rw [show feed env st x = st by simp [feed, hex]]
      rw [foldl_feed_exited env xs st 1 hex]
      exact ⟨Or.inr ⟨hex, hsome⟩, 0, by simp, by simp, fun h => by rw [hex] at h; cases h⟩


theorem importMain_of_setup (flags : ImportFlags) (env : ImportEnv) (books : List BookData)
    (h : setupSucceeds flags env books) :
    importMain flags env = closeAndReport env (ingestLoop env books .init) := by
  obtain ⟨path, data, hf, hne, hr, hu, hc, hb⟩ := h
  simp only [importMain, hf, Option.getD_some, hne, if_false, hr, hu, hc, hb, LoopState.init]

theorem importMain_cases (flags : ImportFlags) (env : ImportEnv) :
    (∃ books, setupSucceeds flags env books) ∨
      ((importMain flags env).calls = [] ∧ (importMain flags env).exit = 1) := by
  unfold importMain
  cases hf : flags.file with
  | none => right; simp only [Option.getD_none, if_true, ImportRun.fatal, and_self]
  | some path =>
    by_cases hp : path = []
    · right; simp only [Option.getD_some, hp, if_true, ImportRun.fatal, and_self]
    · cases hr : env.readFile path with
      | error e => right; simp only [Option.getD_some, hp, if_false, hr, ImportRun.fatal, and_self]
      | ok data =>
        cases hu : env.unmarshal (stripBOM data) with
        | error e => right; simp only [Option.getD_some, hp, if_false, hr, hu, ImportRun.fatal, and_self]
        | ok books =>
          cases hc : env.newClient
            { Addresses := [flags.host.getD "https://localhost:9200".toList]
              Username := flags.username.getD []
              Password := flags.password.getD [] } with
          | some e => right; simp only [Option.getD_some, hp, if_false, hr, hu, hc, ImportRun.fatal, and_self]
          | none =>
            cases hb : env.newBulkIndexer
              { Index := flags.index.getD "bible".toList
                NumWorkers := 4, FlushBytes := 5000000, FlushInterval := 30 } with
            | some e => right; simp only [Option.getD_some, hp, if_false, hr, hu, hc, hb, ImportRun.fatal, and_self]
            | none =>
              left
              exact ⟨books, path, data, hf, hp, hr, hu, hc, hb⟩

theorem closeAndReport_calls (env : ImportEnv) (st : LoopState) :
    (closeAndReport env st).calls = st.calls := by
  unfold closeAndReport
  cases st.exited with
  | some code => rfl
  | none =>
    simp only
    cases bulkIndexerClose Context.Background <;> rfl

theorem closeAndReport_exit (env : ImportEnv) (st : LoopState) :
    (closeAndReport env st).exit =
      match st.exited with
      | some code => code
      | none => if bulkIndexerClose Context.Background = none then 0 else 1 := by
  unfold closeAndReport
  cases st.exited with
  | some code => rfl
  | none =>
    simp only
    cases bulkIndexerClose Context.Background <;> simp

theorem init_consistent : LoopState.init.consistent :=
  Or.inl ⟨rfl, by simp [LoopState.init]⟩

theorem corpusItems_length (env : ImportEnv) (books : List BookData) :
    (corpusItems env books).length = verseCount books := by
  unfold corpusItems verseCount
  rw [List.length_flatMap]
  congr 1
  apply List.map_congr_left
  intro book _
  simp only [Function.comp]
  rw [List.length_flatMap]
  have : (List.map (List.length ∘ fun chapter : Nat × List GoString =>
      List.map (fun verse : Nat × GoString =>
        verseItem (env.marshal (verseDoc book chapter.1 verse.1 verse.2))
          (docID book.Abbrev chapter.1 verse.1)) chapter.2.enum) book.Chapters.enum)
      = List.map (List.length ∘ Prod.snd) book.Chapters.enum := by
    apply List.map_congr_left
    intro ch _
    simp [List.enum_length]
  rw [this, ← List.map_map, List.enum_map_snd]

theorem mem_corpusItems (env : ImportEnv) (books : List BookData) (item : BulkIndexerItem)
    (h : item ∈ corpusItems env books) :
    ∃ book ∈ books, ∃ (c : Nat) (verses : List GoString) (v : Nat) (s : GoString),
      book.Chapters[c]? = some verses ∧ verses[v]? = some s ∧
      item = verseItem (env.marshal (verseDoc book c v s)) (docID book.Abbrev c v) := by
  unfold corpusItems at h
  obtain ⟨book, hbook, h⟩ := List.mem_flatMap.mp h
  obtain ⟨chapter, hch, h⟩ := List.mem_flatMap.mp h
  obtain ⟨verse, hv, h⟩ := List.mem_map.mp h
  exact ⟨book, hbook, chapter.1, chapter.2, verse.1, verse.2,
    List.mem_enum_iff_getElem?.mp hch, List.mem_enum_iff_getElem?.mp hv, h.symm⟩

/-! ## Theorems: the claims on the ingestion program -/

/-- C1: the document ID built at line 85 for the verse at 0-based chapter index
`c` and verse index `v` of a book with abbreviation `a` is `a`, then `-`, then
the decimal rendering of `c + 1`, then `-`, then the decimal rendering of
`v + 1`; and this is the ID of the item that the loop body hands to `Add` for
that verse. -/
theorem docID_format (a : GoString) (c v : Nat) :
    docID a c v =
        a ++ "-".toList ++ (Nat.repr (c + 1)).toList ++ "-".toList ++ (Nat.repr (v + 1)).toList ∧
      ∀ (env : ImportEnv) (book : BookData) (st : LoopState) (s : GoString),
        book.Abbrev = a → st.exited = none →
        ∃ item r, (verseBody env book c st (v, s)).calls = st.calls ++ [(item, r)] ∧
          item.DocumentID =
            a ++ "-".toList ++ (Nat.repr (c + 1)).toList ++ "-".toList ++
              (Nat.repr (v + 1)).toList := by
  have hid := docID_eq a c v
  refine ⟨hid, ?_⟩
  intro env book st s ha hex
  subst ha
  rw [verseBody_eq_feed]
  simp only [feed, hex]
  cases bulkIndexerAdd Context.Background _ with
  | none => exact ⟨_, none, rfl, hid⟩
  | some err => exact ⟨_, some err, rfl, hid⟩

/-- C2: document IDs determine the verse position: if the IDs built for
`(a1, c1, v1)` and `(a2, c2, v2)` are equal, whatever characters the
abbreviations contain, then `a1 = a2`, `c1 = c2` and `v1 = v2`. -/
theorem docID_unique (a1 a2 : GoString) (c1 v1 c2 v2 : Nat)
    (h : docID a1 c1 v1 = docID a2 c2 v2) : a1 = a2 ∧ c1 = c2 ∧ v1 = v2 :=
  docID_injective a1 a2 c1 v1 c2 v2 h

/-- C2 at a concrete input: the ID `a-1-1-1` of abbreviation `a-1`. -/
theorem docID_unique_witness :
    docID "a-1".toList 0 0 = "a-1-1-1".toList ∧
      ("a-1".toList = "a-1".toList ∧ 0 = 0 ∧ 0 = 0) :=
  ⟨by decide, docID_unique "a-1".toList "a-1".toList 0 0 0 0 rfl⟩

/-- Pairwise distinct verse positions get pairwise distinct document IDs. -/
theorem docID_nodup (positions : List (GoString × Nat × Nat)) (h : positions.Nodup) :
    (positions.map fun t => docID t.1 t.2.1 t.2.2).Nodup := by
  refine List.Nodup.map ?_ h
  intro x y hxy
  obtain ⟨h1, h2, h3⟩ := docID_injective _ _ _ _ _ _ hxy
  exact Prod.ext h1 (Prod.ext h2 h3)


/-- C3: when the setup succeeds with corpus `booksData` and no `Add` call of
the run returns an error, the items handed to `Add` are exactly the documents
of the verses, one per verse, in corpus order, and their number is the sum of
the chapters' verse counts. -/
theorem ingestion_submits_each_verse (flags : ImportFlags) (env : ImportEnv)
    (booksData : List BookData) (hsetup : setupSucceeds flags env booksData)
    (hok : ∀ p ∈ (importMain flags env).calls, p.2 = none) :
    (importMain flags env).calls.map (·.1) = corpusItems env booksData ∧
      (importMain flags env).calls.length = verseCount booksData := by
  rw [importMain_of_setup flags env booksData hsetup, closeAndReport_calls] at hok ⊢
  rw [ingestLoop_eq_foldl] at hok ⊢
  obtain ⟨hc, k, _, hadded, hlen⟩ :=
    foldl_feed_spec env (corpusItems env booksData) .init init_consistent
  have hex : (List.foldl (feed env) LoopState.init (corpusItems env booksData)).exited = none := by
    rcases hc with ⟨h, _⟩ | ⟨_, p, hp, hne⟩
    · exact h
    · exact absurd (hok p hp) hne
  have hk := hlen hex
  have hmap : (List.foldl (feed env) LoopState.init (corpusItems env booksData)).calls.map (·.1)
      = corpusItems env booksData := by
    have := hadded
    simp only [LoopState.added, LoopState.init, List.map_nil, List.nil_append, hk,
      List.take_length] at this
    exact this
  refine ⟨hmap, ?_⟩
  have hlen' := congrArg List.length hmap
  rw [List.length_map] at hlen'
  rw [hlen', corpusItems_length]

theorem sample_setup : setupSucceeds sampleImportFlags sampleImportEnv sampleBooks :=
  ⟨"bible.json".toList, [0xEF, 0xBB, 0xBF, 0x5B, 0x5D], rfl, by decide, rfl, rfl, rfl, rfl⟩

/-- C3 at a concrete input: the sample corpus has three verses, an empty
chapter and an empty book, and three documents are submitted. -/
theorem ingestion_submits_each_verse_witness :
    (importMain sampleImportFlags sampleImportEnv).calls.map (·.1) =
        corpusItems sampleImportEnv sampleBooks ∧
      (importMain sampleImportFlags sampleImportEnv).calls.length = verseCount sampleBooks :=
  ingestion_submits_each_verse sampleImportFlags sampleImportEnv sampleBooks sample_setup
    (by decide)

/-- C8: every document that a run submits is the document of a verse of the
corpus, at some 0-based chapter index `c` and verse index `v` of a book; its
ID is the one built for that position and its body is the encoding of the map
with exactly the four entries
`abbrev` = the book's abbreviation, `chapter` = `c + 1`, `verse` = `v + 1` and
`en` (the text field) = the verse string, and both numbers are at least 1. -/
theorem submitted_document_fields (flags : ImportFlags) (env : ImportEnv)
    (p : BulkIndexerItem × Option GoString) (hp : p ∈ (importMain flags env).calls) :
    ∃ booksData, setupSucceeds flags env booksData ∧
      ∃ book ∈ booksData, ∃ (c : Nat) (verses : List GoString) (v : Nat) (s : GoString),
        book.Chapters[c]? = some verses ∧ verses[v]? = some s ∧
        p.1.DocumentID = docID book.Abbrev c v ∧
        p.1.Body = env.marshal
          [("abbrev".toList, .str book.Abbrev),
           ("chapter".toList, .int ((c : Int) + 1)),
           ("verse".toList, .int ((v : Int) + 1)),
           ("en".toList, .str s)] ∧
        (verseDoc book c v s).get "abbrev".toList = some (.str book.Abbrev) ∧
        (verseDoc book c v s).get "chapter".toList = some (.int ((c : Int) + 1)) ∧
        (verseDoc book c v s).get "verse".toList = some (.int ((v : Int) + 1)) ∧
        (verseDoc book c v s).get "en".toList = some (.str s) ∧
        (1 : Int) ≤ (c : Int) + 1 ∧ (1 : Int) ≤ (v : Int) + 1 := by
  rcases importMain_cases flags env with ⟨booksData, hsetup⟩ | ⟨hnil, _⟩
  · refine ⟨booksData, hsetup, ?_⟩
    rw [importMain_of_setup flags env booksData hsetup, closeAndReport_calls,
      ingestLoop_eq_foldl] at hp
    obtain ⟨_, k, _, hadded, _⟩ :=
      foldl_feed_spec env (corpusItems env booksData) .init init_consistent
    have hmem : p.1 ∈ corpusItems env booksData := by
      have h1 : p.1 ∈ (List.foldl (feed env) LoopState.init (corpusItems env booksData)).added :=
        List.mem_map.mpr ⟨p, hp, rfl⟩
      rw [hadded] at h1
      simp only [LoopState.added, LoopState.init, List.map_nil, List.nil_append] at h1
      exact List.mem_of_mem_take h1
    obtain ⟨book, hbook, c, verses, v, s, hc, hv, hitem⟩ := mem_corpusItems env booksData p.1 hmem
    refine ⟨book, hbook, c, verses, v, s, hc, hv, ?_, ?_, rfl, rfl, rfl, rfl, by omega,
      by omega⟩ <;>
    · rw [hitem]
      rfl
  · rw [hnil] at hp
    cases hp

/-- C8 at a concrete input: the first call of the sample run, whose item is
the document of verse 1 of chapter 1 of the book `gn`. -/
theorem submitted_document_fields_witness :
    (importMain sampleImportFlags sampleImportEnv).calls.head? =
        some (verseItem (sampleImportEnv.marshal
          [("abbrev".toList, .str "gn".toList), ("chapter".toList, .int 1),
           ("verse".toList, .int 1), ("en".toList, .str "In the beginning".toList)])
          "gn-1-1".toList, none) ∧
      ∃ booksData, setupSucceeds sampleImportFlags sampleImportEnv booksData :=
  ⟨by decide,
    (submitted_document_fields sampleImportFlags sampleImportEnv
      (verseItem (sampleImportEnv.marshal
          [("abbrev".toList, .str "gn".toList), ("chapter".toList, .int 1),
           ("verse".toList, .int 1), ("en".toList, .str "In the beginning".toList)])
          "gn-1-1".toList, none) (by decide)).imp fun _ h => h.1⟩

/-- C9: the exit status of the ingestion program is 0 exactly when the setup
succeeds (the file path is given, the corpus is read and parsed, the store
client and the bulk indexer are constructed), and 1 otherwise, in which case
no document was submitted.  After a successful setup nothing changes the exit
status: `Add` and `Close` are called with the background context and return no
error, and the per-document failures, however many the `OnFailure` calls and the
statistics report, are only logged. -/
theorem ingestion_exit_status (flags : ImportFlags) (env : ImportEnv) :
    ((importMain flags env).exit = 0 ↔ ∃ booksData, setupSucceeds flags env booksData) ∧
      ((importMain flags env).exit = 0 ∨
        ((importMain flags env).exit = 1 ∧ (importMain flags env).calls = [])) := by
  rcases importMain_cases flags env with ⟨booksData, hsetup⟩ | ⟨hnil, hexit⟩
  · have h0 : (importMain flags env).exit = 0 := by
      rw [importMain_of_setup flags env booksData hsetup, closeAndReport_exit,
        ingestLoop_eq_foldl, foldl_feed_not_exited env _ _ rfl]
      rfl
    exact ⟨⟨fun _ => ⟨booksData, hsetup⟩, fun _ => h0⟩, Or.inl h0⟩
  · refine ⟨⟨fun h => ?_, fun h => ?_⟩, Or.inr ⟨hexit, hnil⟩⟩
    · rw [hexit] at h
      cases h
    · obtain ⟨booksData, hsetup⟩ := h
      rw [importMain_of_setup flags env booksData hsetup, closeAndReport_exit,
        ingestLoop_eq_foldl, foldl_feed_not_exited env _ _ rfl] at hexit
      cases hexit

/-- C9 at a concrete input: in the sample run the store rejects the second
document, the rejection is logged and counted, and the exit status is 0. -/
theorem ingestion_exit_status_witness :
    (sampleImportEnv.stats ((importMain sampleImportFlags sampleImportEnv).calls.map (·.1))).NumFailed
        = 1 ∧
      (importMain sampleImportFlags sampleImportEnv).log =
        ["Failed to index document gn-1-2: mapper_parsing_exception".toList,
         "Indexed 2 documents with 1 failures\n".toList] ∧
      (importMain sampleImportFlags sampleImportEnv).exit = 0 :=
  ⟨by decide, by decide,
    (ingestion_exit_status sampleImportFlags sampleImportEnv).1.mpr ⟨sampleBooks, sample_setup⟩⟩

/-! ## Theorems: highlighting (lines 86 and 169-172) -/

theorem special_escapable (c : Char) (h : special c = true) :
    c.toNat < 128 ∧ isalnum c = false := by
  have hmem : c ∈ specialBytes := List.elem_iff.mp h
  have : c ∈ ['\\', '.', '+', '*', '?', '(', ')', '|', '[', ']', '{', '}', '^', '$'] := hmem
  simp only [List.mem_cons, List.mem_singleton, List.not_mem_nil, or_false] at this
  rcases this with rfl | rfl | rfl | rfl | rfl | rfl | rfl | rfl | rfl | rfl | rfl | rfl | rfl | rfl <;>
    decide

theorem parsePattern_escape (foldCase : Bool) (e : Char) (rest : GoString) :
    parsePattern foldCase ('\\' :: e :: rest) =
      if e.toNat < 128 ∧ ¬ isalnum e then
        (parsePattern foldCase rest).map (⟨e, foldCase⟩ :: ·)
      else none := by
  rw [parsePattern.eq_def]
  simp

theorem parsePattern_literal (foldCase : Bool) (c : Char) (rest : GoString)
    (h1 : c ≠ '(') (h2 : c ≠ '\\') (h3 : special c = false) :
    parsePattern foldCase (c :: rest) =
      (parsePattern foldCase rest).map (⟨c, foldCase⟩ :: ·) := by
  rw [parsePattern.eq_def]
  simp [h1, h2, h3]

theorem parsePattern_foldGroup (foldCase : Bool) (rest : GoString) :
    parsePattern foldCase ('(' :: '?' :: 'i' :: ')' :: rest) = parsePattern true rest := by
  rw [parsePattern.eq_def]
  simp

theorem parsePattern_QuoteMeta (foldCase : Bool) (t : GoString) :
    parsePattern foldCase (QuoteMeta t) = some (t.map fun r => ⟨r, foldCase⟩) := by
  induction t with
  | nil => rfl
  | cons c t ih =>
    have hq : QuoteMeta (c :: t) = (if special c then ['\\', c] else [c]) ++ QuoteMeta t := by
      simp [QuoteMeta, List.flatMap_cons]
    rw [hq]
    by_cases hs : special c = true
    · obtain ⟨h1, h2⟩ := special_escapable c hs
      simp only [hs, if_true, List.cons_append, List.nil_append]
      rw [parsePattern_escape, ih]
      simp [h1, h2]
    · have hs' : special c = false := by simpa using hs
      have h1 : c ≠ '(' := by rintro rfl; exact absurd hs' (by decide)
      have h2 : c ≠ '\\' := by rintro rfl; exact absurd hs' (by decide)
      simp only [hs', Bool.false_eq_true, if_false, List.cons_append, List.nil_append]
      rw [parsePattern_literal foldCase c _ h1 h2 hs', ih]
      rfl

theorem Compile_QuoteMeta (t : GoString) :
    Compile ("(?i)".toList ++ QuoteMeta t) = some (t.map fun r => ⟨r, true⟩) := by
  have : "(?i)".toList ++ QuoteMeta t = '(' :: '?' :: 'i' :: ')' :: QuoteMeta t := rfl
  rw [this, Compile, parsePattern_foldGroup]
  exact parsePattern_QuoteMeta true t

theorem matchHere_map (foldOrbit : Char → List Char) (t : GoString) :
    ∀ s, matchHere foldOrbit (t.map fun r => ⟨r, true⟩) s = occursAt foldOrbit t s := by
  induction t with
  | nil => intro s; rfl
  | cons a t ih =>
    intro s
    cases s with
    | nil => rfl
    | cons r s =>
      simp only [List.map_cons, matchHere, occursAt, ih, matchRune, eqFold, Bool.true_and]

theorem occursAt_length (foldOrbit : Char → List Char) (t : GoString) :
    ∀ s, occursAt foldOrbit t s = true → t.length ≤ s.length := by
  induction t with
  | nil => intro s _; simp
  | cons a t ih =>
    intro s h
    cases s with
    | nil => simp [occursAt] at h
    | cons r s =>
      simp only [occursAt, Bool.and_eq_true] at h
      have := ih s h.2
      simp; omega

theorem markOccurrences_cons_hit (foldOrbit : Char → List Char) (marker : GoString → GoString)
    (t : GoString) (r : Char) (s : GoString) (ht : t ≠ [])
    (h : occursAt foldOrbit t (r :: s) = true) :
    markOccurrences foldOrbit marker t (r :: s) =
      marker ((r :: s).take t.length) ++
        markOccurrences foldOrbit marker t ((r :: s).drop t.length) := by
  rw [markOccurrences]
  simp [ht, h]

theorem markOccurrences_cons_miss (foldOrbit : Char → List Char) (marker : GoString → GoString)
    (t : GoString) (r : Char) (s : GoString)
    (h : occursAt foldOrbit t (r :: s) = false) :
    markOccurrences foldOrbit marker t (r :: s) =
      r :: markOccurrences foldOrbit marker t s := by
  rw [markOccurrences]
  simp [h]

theorem findMatch_spec (foldOrbit : Char → List Char) (marker : GoString → GoString)
    (t : GoString) (ht : t ≠ []) :
    ∀ (l : GoString) (pos : Nat),
      match findMatch foldOrbit (t.map fun r => ⟨r, true⟩) l pos with
      | none => markOccurrences foldOrbit marker t l = l
      | some (a0, a1) =>
        ∃ k, a0 = pos + k ∧ a1 = a0 + t.length ∧ k + t.length ≤ l.length ∧
          markOccurrences foldOrbit marker t l =
            l.take k ++ marker ((l.drop k).take t.length) ++
              markOccurrences foldOrbit marker t (l.drop (k + t.length)) := by
  intro l
  induction l with
  | nil =>
    intro pos
    obtain ⟨a, t', rfl⟩ := List.exists_cons_of_ne_nil ht
    simp only [findMatch, List.map_cons, matchHere]
    simp [markOccurrences]
  | cons r l ih =>
    intro pos
    rw [findMatch, matchHere_map]
    by_cases h : occursAt foldOrbit t (r :: l) = true
    · rw [if_pos h, List.length_map]
      refine ⟨0, rfl, rfl, ?_, ?_⟩
      · have := occursAt_length foldOrbit t _ h
        omega
      · rw [markOccurrences_cons_hit foldOrbit marker t r l ht h]
        simp
    · have h' : occursAt foldOrbit t (r :: l) = false := by simpa using h
      simp only [h', Bool.false_eq_true, if_false]
      have ih' := ih (pos + 1)
      cases hf : findMatch foldOrbit (t.map fun r => ⟨r, true⟩) l (pos + 1) with
      | none =>
        rw [hf] at ih'
        simp only at ih' ⊢
        rw [markOccurrences_cons_miss foldOrbit marker t r l h', ih']
      | some a =>
        obtain ⟨a0, a1⟩ := a
        rw [hf] at ih'
        simp only at ih' ⊢
        obtain ⟨k, h0, h1, hk, hm⟩ := ih'
        refine ⟨k + 1, by omega, h1, by simp; omega, ?_⟩
        rw [markOccurrences_cons_miss foldOrbit marker t r l h', hm]
        simp [Nat.add_right_comm k 1 t.length]

theorem replaceAllLoop_spec (foldOrbit : Char → List Char) (marker : GoString → GoString)
    (t src : GoString) (ht : t ≠ []) :
    ∀ (fuel p : Nat) (buf : GoString), p ≤ src.length → src.length + 2 ≤ fuel + p →
      replaceAllLoop foldOrbit (t.map fun r => ⟨r, true⟩) src marker fuel p p buf =
        some (buf ++ markOccurrences foldOrbit marker t (src.drop p)) := by
  intro fuel
  induction fuel with
  | zero => intro p buf hp hf; omega
  | succ n ih =>
    intro p buf hp hf
    have hlen : 0 < t.length := List.length_pos.mpr ht
    rw [replaceAllLoop]
    simp only [hp, if_true, doExecute]
    have hspec := findMatch_spec foldOrbit marker t ht (src.drop p) p
    cases hfm : findMatch foldOrbit (t.map fun r => ⟨r, true⟩) (src.drop p) p with
    | none =>
      rw [hfm] at hspec
      simp only at hspec ⊢
      rw [hspec]
    | some a =>
      obtain ⟨a0, a1⟩ := a
      rw [hfm] at hspec
      simp only at hspec ⊢
      obtain ⟨k, h0, h1, hk, hm⟩ := hspec
      rw [List.length_drop] at hk
      have e1 : a1 > p ∨ a0 = 0 := Or.inl (by omega)
      have e2 : p < src.length := by omega
      have e3 : ¬ (p + 1 > a1) := by omega
      simp only [e1, if_true, e2, e3, if_false]
      rw [ih a1 _ (by omega) (by omega), hm]
      have d1 : a0 - p = k := by omega
      have d2 : a1 - a0 = t.length := by omega
      have d3 : List.drop a0 src = List.drop k (List.drop p src) := by
        rw [List.drop_drop, h0]
      have d4 : List.drop a1 src = List.drop (k + t.length) (List.drop p src) := by
        rw [List.drop_drop, h1, h0]
        try (congr 1; omega)
      rw [d1, d2, d3, d4]
      simp [List.append_assoc]

/-- C5: for a non-empty search term, the text rendered by lines 86 and 170-172
(the pattern `(?i)` followed by the quoted term, compiled, and every match
replaced by `green(match)`) is the text obtained by scanning the verse from left
to right and wrapping every non-overlapping occurrence of the literal term, up
to case, in `green`, in its original case, with everything else unchanged. -/
theorem highlight_is_literal_scan (foldOrbit : Char → List Char)
    (green : GoString → GoString) (t s : GoString) (ht : t ≠ []) :
    highlightText foldOrbit green t s = some (markOccurrences foldOrbit green t s) := by
  unfold highlightText
  rw [Compile_QuoteMeta]
  simp only [ReplaceAllStringFunc]
  rw [replaceAllLoop_spec foldOrbit green t s ht (s.length + 2) 0 [] (Nat.zero_le _) (by omega)]
  simp

/-- C5 at the input of the specification: the term `faith` on the text
`Now Faith is the substance` marks exactly the word `Faith`. -/
theorem highlight_is_literal_scan_witness :
    highlightText asciiFoldOrbit (ansiColor "32".toList) "faith".toList
        "Now Faith is the substance".toList =
      some ("Now ".toList ++ ansiColor "32".toList "Faith".toList ++
        " is the substance".toList) ∧
    highlightText asciiFoldOrbit (ansiColor "32".toList) "faith".toList
        "Now Faith is the substance".toList =
      some (markOccurrences asciiFoldOrbit (ansiColor "32".toList) "faith".toList
        "Now Faith is the substance".toList) :=
  ⟨by decide,
    highlight_is_literal_scan asciiFoldOrbit (ansiColor "32".toList) "faith".toList
      "Now Faith is the substance".toList (by decide)⟩

/-- In a run of the program the compiled pattern is the one of line 86, and
the line printed for a hit carries the verse text with the occurrences of the
search term marked. -/
theorem hitLine_marks_term (env : SearchEnv) (searchText : GoString) (hit : Hit)
    (prog : List RuneInst) (ht : searchText ≠ [])
    (hprog : Compile ("(?i)".toList ++ QuoteMeta searchText) = some prog) :
    hitLine env prog hit =
      env.blue (hit.Source.Book ++ ' ' :: fmtInteger hit.Source.Chapter ++
        ':' :: fmtInteger hit.Source.Verse) ++
      ' ' :: markOccurrences env.foldOrbit env.green searchText hit.Source.Text ++
      ' ' :: env.magenta (env.formatScore hit.Score) ++ ['\n'] := by
  rw [Compile_QuoteMeta] at hprog
  obtain rfl := Option.some.inj hprog
  have h := replaceAllLoop_spec env.foldOrbit env.green searchText hit.Source.Text ht
    (hit.Source.Text.length + 2) 0 [] (Nat.zero_le _) (by omega)
  simp only [List.drop_zero, List.nil_append] at h
  simp [hitLine, ReplaceAllStringFunc, h, Sprintf]

/-- Metacharacters of the term are matched literally: the term `a.c` marks
`A.c` and leaves `abc` alone. -/
theorem highlight_metacharacters :
    highlightText asciiFoldOrbit (ansiColor "32".toList) "a.c".toList "abc A.c".toList =
      some ("abc ".toList ++ ansiColor "32".toList "A.c".toList) := by
  decide

/-- C6: when the configuration is complete, the client is constructed and the
store's reply decodes to a result whose total is 0, the program prints the
no-results line and nothing else, whatever the hits of the reply are, and ends
with exit status 0. -/
theorem no_results_on_zero_total (flags : SearchFlags) (env : SearchEnv) (c : SearchConfig)
    (status : Nat) (r : SearchResult)
    (hcfg : resolveConfig flags env.environ = some c)
    (hreq : missingRequired c = false)
    (hclient : env.newClient
      { Addresses := [c.esHost], Username := c.esUsername, Password := c.esPassword } = none)
    (hsearch : env.search c.esIndex (buildQuery c) = .response status (.ok r))
    (htotal : r.Total = 0) :
    searchMain flags env = { stdout := [noResults], exit := 0 } := by
  simp only [searchMain, hcfg, runQuery, hreq, Compile_QuoteMeta, hclient, hsearch, report,
    htotal, if_true, Bool.false_eq_true, if_false]

/-- C6 at a concrete input: the store answers with total 0 and a hit in its
hits array; only the no-results line is printed. -/
theorem no_results_on_zero_total_witness :
    searchMain sampleSearchFlags
        (sampleSearchEnv 200 (.ok { Total := 0, Hits := [sampleHit] })) =
      { stdout := [noResults], exit := 0 } :=
  no_results_on_zero_total sampleSearchFlags
    (sampleSearchEnv 200 (.ok { Total := 0, Hits := [sampleHit] }))
    { esHost := "https://localhost:9200".toList, esIndex := "bible".toList
      esUsername := "elastic".toList, esPassword := "changeme".toList
      searchText := "faith".toList, maxResults := 25 }
    200 { Total := 0, Hits := [sampleHit] } (by decide) (by decide) rfl rfl rfl

/-- C7 fails on the code: the store answers with the error status 404 and an
error body, which has no `hits` section and so decodes to the zero value of
`SearchResult`; the program prints the no-results line and ends with exit
status 0, as it does for a successful reply without matches. -/
theorem error_reply_reported_as_no_results :
    IsError 404 = true ∧
      searchMain sampleSearchFlags (sampleSearchEnv 404 (.ok SearchResult.zero)) =
        { stdout := [noResults], exit := 0 } ∧
      searchMain sampleSearchFlags (sampleSearchEnv 200 (.ok SearchResult.zero)) =
        { stdout := [noResults], exit := 0 } := by
  decide

/-- A hit is printed with the reference, the highlighted text and the score. -/
theorem sample_hit_line :
    searchMain sampleSearchFlags (sampleSearchEnv 200 (.ok { Total := 1, Hits := [sampleHit] })) =
      { stdout := [ansiColor "34".toList "hb 11:1".toList ++ " Now ".toList ++
          ansiColor "32".toList "Faith".toList ++ " is the substance ".toList ++
          ansiColor "35".toList "[5.0000]".toList ++ "\n".toList], exit := 0 } := by
  decide

/-! ## Theorems: configuration (lines 48-78) -/

theorem Getenv_of_some (environ : Environ) (key v : GoString) (h : environ key = some v) :
    Getenv environ key = v := by
  simp [Getenv, h]

theorem Getenv_of_absent (environ : Environ) (key : GoString)
    (h : environ key = none ∨ environ key = some []) : Getenv environ key = [] := by
  rcases h with h | h <;> simp [Getenv, h]

/-- The closed form of the environment overrides. -/
theorem resolveConfig_eq (flags : SearchFlags) (environ : Environ) :
    resolveConfig flags environ =
      let pick := fun (key dflt : GoString) =>
        if Getenv environ key ≠ [] then Getenv environ key else dflt
      let c : SearchConfig :=
        { esHost := pick "ES_HOST".toList (flags.host.getD "https://localhost:9200".toList)
          esIndex := pick "ES_INDEX".toList (flags.index.getD "bible".toList)
          esUsername := pick "ES_USERNAME".toList (flags.username.getD [])
          esPassword := pick "ES_PASSWORD".toList (flags.password.getD [])
          searchText := pick "SEARCH_TEXT".toList (flags.text.getD [])
          maxResults := flags.max.getD 25 }
      if Getenv environ "MAX_RESULTS".toList ≠ [] then
        (Atoi (Getenv environ "MAX_RESULTS".toList)).map fun n => { c with maxResults := n }
      else some c := by
  simp only [resolveConfig, applyEnviron, parseFlags]
  by_cases h1 : Getenv environ "ES_HOST".toList = [] <;>
  by_cases h2 : Getenv environ "ES_INDEX".toList = [] <;>
  by_cases h3 : Getenv environ "ES_USERNAME".toList = [] <;>
  by_cases h4 : Getenv environ "ES_PASSWORD".toList = [] <;>
  by_cases h5 : Getenv environ "SEARCH_TEXT".toList = [] <;>
  by_cases h6 : Getenv environ "MAX_RESULTS".toList = [] <;>
  simp only [h1, h2, h3, h4, h5, h6, ne_eq, not_true_eq_false, not_false_eq_true, if_true,
    if_false] <;>
  cases Atoi (Getenv environ "MAX_RESULTS".toList) <;> rfl

theorem effective_of_resolve (flags : SearchFlags) (environ : Environ) (c : SearchConfig)
    (h : resolveConfig flags environ = some c) (s : Setting) :
    s.effective c =
      if Getenv environ s.envKey ≠ [] then Getenv environ s.envKey else s.flagValue flags := by
  rw [resolveConfig_eq] at h
  simp only at h
  by_cases hm : Getenv environ "MAX_RESULTS".toList = []
  · simp only [hm, ne_eq, not_true_eq_false, if_false, Option.some.injEq] at h
    subst h
    cases s <;> rfl
  · simp only [hm, ne_eq, not_false_eq_true, if_true, Option.map_eq_some'] at h
    obtain ⟨n, -, rfl⟩ := h
    cases s <;> rfl

/-- C10, as the code has it by design.  When `MAX_RESULTS` is set to a
non-empty value that `strconv.Atoi` rejects, no configuration is resolved and
the program ends with exit status 1 without printing; when `Atoi` accepts it,
the integer it denotes is the effective maximum; when `MAX_RESULTS` is not set,
the effective maximum is the flag's value or the default 25.  The resolved
configuration is the one the rest of the program runs with, and in it a string
setting whose environment variable is set to a non-empty value has that value,
and one whose variable is not set has the flag's value or default. -/
theorem env_override (flags : SearchFlags) (env : SearchEnv) :
    (∀ v, env.environ "MAX_RESULTS".toList = some v → v ≠ [] → Atoi v = none →
        resolveConfig flags env.environ = none ∧
          searchMain flags env = { stdout := [], exit := 1 }) ∧
      (∀ v n, env.environ "MAX_RESULTS".toList = some v → v ≠ [] → Atoi v = some n →
        ∃ c, resolveConfig flags env.environ = some c ∧ c.maxResults = n) ∧
      (env.environ "MAX_RESULTS".toList = none →
        ∃ c, resolveConfig flags env.environ = some c ∧ c.maxResults = flags.max.getD 25) ∧
      ∀ c, resolveConfig flags env.environ = some c →
        searchMain flags env = runQuery env c ∧
        ∀ s : Setting,
          (∀ v, env.environ s.envKey = some v → v ≠ [] → s.effective c = v) ∧
          (env.environ s.envKey = none → s.effective c = s.flagValue flags) := by
  refine ⟨?_, ?_, ?_, ?_⟩
  · intro v hv hne hatoi
    have hres : resolveConfig flags env.environ = none := by
      rw [resolveConfig_eq]
      simp only [Getenv_of_some env.environ _ v hv, ne_eq, hne, not_false_eq_true, if_true,
        hatoi, Option.map_none']
    exact ⟨hres, by simp only [searchMain, hres]⟩
  · intro v n hv hne hatoi
    rw [resolveConfig_eq]
    simp only [Getenv_of_some env.environ _ v hv, ne_eq, hne, not_false_eq_true, if_true,
      hatoi, Option.map_some']
    exact ⟨_, rfl, rfl⟩
  · intro hnone
    rw [resolveConfig_eq]
    simp only [Getenv_of_absent env.environ _ (Or.inl hnone), ne_eq, not_true_eq_false,
      if_false]
    exact ⟨_, rfl, rfl⟩
  · intro c hc
    refine ⟨by simp only [searchMain, hc], ?_⟩
    intro s
    have he := effective_of_resolve flags env.environ c hc s
    constructor
    · intro v hv hne
      rw [he, Getenv_of_some env.environ _ v hv]
      simp [hne]
    · intro habs
      rw [he, Getenv_of_absent env.environ _ (Or.inl habs)]
      simp

/-- C10 as stated fails where flag and environment variable are both present:
with `-max=10` and `MAX_RESULTS=ten` there is no effective value, no
configuration is resolved and the program ends with exit status 1. -/
theorem env_override_counterexample :
    overrideFlags.max = some 10 ∧
      badMaxEnviron "MAX_RESULTS".toList = some "ten".toList ∧
      resolveConfig overrideFlags badMaxEnviron = none ∧
      (searchMain overrideFlags
        { sampleSearchEnv 200 (.ok SearchResult.zero) with environ := badMaxEnviron }).exit = 1 := by
  decide

/-- A decimal integer outside the range of `int` is rejected like any other
value that `Atoi` does not accept. -/
theorem max_results_out_of_range :
    Atoi "9223372036854775808".toList = none ∧
      Atoi "9223372036854775807".toList = some 9223372036854775807 ∧
      (searchMain overrideFlags
        { sampleSearchEnv 200 (.ok SearchResult.zero) with environ := hugeMaxEnviron }).exit = 1 := by
  decide

/-- The environment overrides at a concrete input: `ES_USERNAME` and
`ES_PASSWORD` come from the environment, everything else from the flags and
their defaults. -/
theorem env_override_sample :
    resolveConfig sampleSearchFlags (sampleSearchEnv 200 (.ok SearchResult.zero)).environ =
      some { esHost := "https://localhost:9200".toList, esIndex := "bible".toList
             esUsername := "elastic".toList, esPassword := "changeme".toList
             searchText := "faith".toList, maxResults := 25 } := by
  decide

end ElasticBible
